import Mathlib

/-!
wert: a verification development

A shallow embedding of the command driver (`main.go`: `execute`) and of the exchange
client (`client/client.go`: `APIClient.Exchange`, `cmcRes`, `cmcReq`, `newRequest`).

Conventions of the embedding

* A Go `string` is a sequence of bytes: `GoString := List Byte`.
* A Go `error` is a value of `GoError`: the two `context` sentinels, an error without a
  cause, or an error made by `fmt.Errorf` with `%w`, which keeps its cause.
* A Go `float64` is its IEEE 754 binary64 bit pattern.
* Functions of the Go standard library that the program calls and whose text is not part
  of the repository (`strconv.ParseFloat`, `json.Unmarshal`, the `fmt` verbs for floats,
  `strconv.Quote`, the Unicode case table, `http.NewRequestWithContext`, ...) are the
  fields of `Lib`; the theorems hold for every `Lib`, and `UpperStable` is the one
  property of the library that is assumed, where it is named.
* `context.Context` values and the 3 second / 5 second timers are not modelled: they act
  on the program only through the error that the HTTP round trip or the `Exchanger`
  returns.
-/

namespace Wert

/-! ## Strings -/

/-- A byte. -/
abbrev Byte := Fin 256

/-- A Go string: a sequence of bytes. -/
abbrev GoString := List Byte

/-- The bytes of an ASCII literal of the source text. -/
def str (s : String) : GoString := s.toList.map (fun c => Fin.ofNat c.toNat)

/-! ## Errors -/

/-- Go `error` values.  `wrap msg cause` is the `*fmt.wrapError` that `fmt.Errorf`
builds for a format with `%w`; `msg` is the whole formatted text. -/
inductive GoError where
  | canceled : GoError
  | deadlineExceeded : GoError
  | plain (msg : GoString) : GoError
  | wrap (msg : GoString) (cause : GoError) : GoError
  deriving DecidableEq, Repr

namespace GoError

/-- The method `Error()`. -/
def Error : GoError → GoString
  | canceled => str "context canceled"
  | deadlineExceeded => str "context deadline exceeded"
  | plain msg => msg
  | wrap msg _ => msg

/-- The function `errors.Unwrap`. -/
def Unwrap : GoError → Option GoError
  | wrap _ cause => some cause
  | _ => none

/-- The function `errors.Is`: `target` is `err` or is on the `Unwrap` chain of `err`. -/
def Is : GoError → GoError → Bool
  | wrap msg cause, target => decide (wrap msg cause = target) || Is cause target
  | err, target => decide (err = target)

end GoError

/-- The call `fmt.Errorf(prefix + "%w", err)`. -/
def errorfW (pfx : GoString) (err : GoError) : GoError :=
  GoError.wrap (pfx ++ err.Error) err

/-! ## float64 -/

/-- A `float64`, given by its IEEE 754 binary64 bit pattern (read modulo `2 ^ 64`). -/
structure Float64 where
  bits : Nat
  deriving DecidableEq, Repr

namespace Float64

/-- The sign bit. -/
def sign (f : Float64) : Nat := f.bits / 2 ^ 63 % 2

/-- The biased exponent, 11 bits. -/
def expo (f : Float64) : Nat := f.bits / 2 ^ 52 % 2048

/-- The fraction, 52 bits. -/
def frac (f : Float64) : Nat := f.bits % 2 ^ 52

/-- Not a number. -/
def isNaN (f : Float64) : Bool := f.expo == 2047 && f.frac != 0

/-- Plus or minus zero. -/
def isZero (f : Float64) : Bool := f.expo == 0 && f.frac == 0

/-- The Go comparison `f <= 0`. -/
def le0 (f : Float64) : Bool := !f.isNaN && (f.isZero || f.sign == 1)

/-- The Go comparison `f > 0`. -/
def gt0 (f : Float64) : Bool := !f.isNaN && !f.isZero && f.sign == 0

/-- The Go comparison `f < 0`. -/
def lt0 (f : Float64) : Bool := !f.isNaN && !f.isZero && f.sign == 1

/-- The constant `0`. -/
def zero : Float64 := ⟨0⟩

end Float64

/-! ## Data model -/

/-- Modelled from the spec: the type `domain.Exchange` of the package `domain`, which is
not among the source files.  The spec's ExchangeRequest is
`{ Amount: positive decimal, From: symbol string, To: symbol string }`; the callers build
it with the fields `From`, `Amount` and `To`. -/
structure Exchange where
  Amount : Float64
  From : GoString
  To : GoString
  deriving DecidableEq, Repr

/-- The type `quote` of `client.go`. -/
structure quote where
  Price : Float64
  deriving DecidableEq, Repr

/-- The type `data` of `client.go`; the Go map is an association list read with
`List.lookup`. -/
structure data where
  Quote : List (GoString × quote)
  deriving DecidableEq, Repr

/-- The type `cmcRes` of `client.go`. -/
structure cmcRes where
  Data : List (GoString × data)
  deriving DecidableEq, Repr

/-- The fields of `net/url.URL` that the program touches. -/
structure URL where
  Scheme : GoString
  Host : GoString
  Path : GoString
  RawQuery : GoString
  deriving DecidableEq, Repr

/-- The type `http.Header`: canonical key to values. -/
abbrev Header := List (GoString × List GoString)

/-- The fields of `http.Request` that the program touches. -/
structure Request where
  Method : GoString
  URL : URL
  Header : Header
  deriving DecidableEq, Repr

/-- The fields of `http.Response` that the program touches; `Body` is the outcome of
`io.ReadAll(resp.Body)`. -/
structure Response where
  StatusCode : Int
  Status : GoString
  Body : Except GoError GoString

/-- The standard library functions the program calls. -/
structure Lib where
  /-- The call `strconv.ParseFloat(s, 64)`. -/
  ParseFloat : GoString → Except GoError Float64
  /-- The call `strings.Map(unicode.ToUpper, s)`. -/
  MapToUpper : GoString → GoString
  /-- The verb `%.2f` applied to a `float64`. -/
  FormatF2 : Float64 → GoString
  /-- The default format of a `float64` operand of `fmt.Fprintln`. -/
  FormatV : Float64 → GoString
  /-- The verb `%q` applied to a string (`strconv.Quote`). -/
  Quote : GoString → GoString
  /-- The call `json.Unmarshal(body, &res)` on a zero `cmcRes`. -/
  Unmarshal : GoString → Except GoError cmcRes
  /-- The function `url.Parse`. -/
  Parse : GoString → Except GoError URL
  /-- The method `(*url.URL).ResolveReference`. -/
  ResolveReference : URL → URL → URL
  /-- The method `(*url.URL).String`. -/
  URLString : URL → GoString
  /-- The call `http.NewRequestWithContext(ctx, method, url, nil)`. -/
  NewRequestWithContext : GoString → GoString → Except GoError Request
  /-- The function `textproto.CanonicalMIMEHeaderKey`. -/
  CanonicalMIMEHeaderKey : GoString → GoString

/-! ## strings.ToUpper -/

/-- The ASCII branch of `strings.ToUpper`: `if 'a' <= c && c <= 'z' { c -= 'a' - 'A' }`. -/
def upperByte (c : Byte) : Byte :=
  if 97 ≤ c.val ∧ c.val ≤ 122 then Fin.ofNat (c.val - 32) else c

/-- The function `strings.ToUpper`. -/
def ToUpper (lib : Lib) (s : GoString) : GoString :=
  let isASCII := s.all (fun c => decide (c.val < 128))
  let hasLower := s.any (fun c => decide (97 ≤ c.val ∧ c.val ≤ 122))
  if isASCII then
    if !hasLower then s else s.map upperByte
  else lib.MapToUpper s

/-! ## main.go -/

/-- The type `Exchanger` of `main.go`: the method `Exchange` as a function of the request. -/
abbrev Exchanger := Exchange → Float64 × Option GoError

/-- What `execute` does to the outside, in order. -/
inductive Event where
  | write (s : GoString) : Event
  | call (ex : Exchange) : Event
  deriving DecidableEq, Repr

/-- The result of a run of `execute`: the error it returns and its events. -/
structure Outcome where
  err : Option GoError
  events : List Event
  deriving DecidableEq, Repr

/-- The bytes written to the sink `out`. -/
def Outcome.output (o : Outcome) : GoString :=
  o.events.flatMap (fun e => match e with | Event.write s => s | Event.call _ => [])

/-- The requests the `Exchanger` received. -/
def Outcome.calls (o : Outcome) : List Exchange :=
  o.events.flatMap (fun e => match e with | Event.write _ => [] | Event.call ex => [ex])

/-- The text `fmt.Fprintln` writes for operands already formatted: a space between
operands and a newline at the end. -/
def Sprintln (operands : List GoString) : GoString :=
  (str " ").intercalate operands ++ str "\n"

/-- The function `execute` of `main.go`. -/
def execute (lib : Lib) (args : List GoString) (exchanger : Exchanger) : Outcome :=
  if args.length ≠ 3 then
    ⟨some (GoError.plain (str "usage: fxcli <amount> <from> <to>")), []⟩
  else
    match lib.ParseFloat (args.getD 0 []) with
    | Except.error err =>
      ⟨some (GoError.plain (str "error parsing amount: " ++ err.Error)), []⟩
    | Except.ok amount =>
      if amount.le0 then
        ⟨some (GoError.plain (str "amount cannot be negative or zero: " ++ lib.FormatF2 amount)), []⟩
      else
        let from_ := ToUpper lib (args.getD 1 [])
        let to_ := ToUpper lib (args.getD 2 [])
        let announce := Event.write (Sprintln [str "Exchange", lib.FormatV amount, from_, str "to", to_])
        let req : Exchange := { From := from_, Amount := amount, To := to_ }
        match exchanger req with
        | (_, some err) =>
          if err.Is GoError.canceled || err.Is GoError.deadlineExceeded then
            ⟨some err, [announce, Event.call req]⟩
          else
            ⟨some (errorfW (str "cannot get exchange rate: ") err), [announce, Event.call req]⟩
        | (res, none) =>
          ⟨none, [announce, Event.call req,
            Event.write (Sprintln [str "You received", lib.FormatV res, to_])]⟩

/-! ## net/url: query strings -/

/-- The type `url.Values`: the Go map from key to values. -/
abbrev Values := List (GoString × List GoString)

/-- The method `Values.Add`: `v[key] = append(v[key], value)`. -/
def Values.Add : Values → GoString → GoString → Values
  | [], key, value => [(key, [value])]
  | (k, vs) :: rest, key, value =>
    if k = key then (k, vs ++ [value]) :: rest else (k, vs) :: Values.Add rest key value

/-- The Go comparison `a < b` of two strings: bytewise lexicographic. -/
def strLess : GoString → GoString → Bool
  | [], [] => false
  | [], _ :: _ => true
  | _ :: _, [] => false
  | a :: as, b :: bs =>
    if a.val < b.val then true else if b.val < a.val then false else strLess as bs

/-- Insertion of a key into a sorted list of keys. -/
def insertSorted (key : GoString) : List GoString → List GoString
  | [] => [key]
  | k :: ks => if strLess k key then k :: insertSorted key ks else key :: k :: ks

/-- The call `slices.Sort(keys)`. -/
def sortStrings (keys : List GoString) : List GoString :=
  keys.foldr insertSorted []

/-- The function `shouldEscape(c, encodeQueryComponent)`: everything is escaped but
letters, digits and `-`, `_`, `.`, `~`. -/
def shouldEscape (c : Byte) : Bool :=
  if (97 ≤ c.val ∧ c.val ≤ 122) ∨ (65 ≤ c.val ∧ c.val ≤ 90) ∨ (48 ≤ c.val ∧ c.val ≤ 57) then false
  else if c.val = 45 ∨ c.val = 95 ∨ c.val = 46 ∨ c.val = 126 then false
  else true

/-- The table `upperhex = "0123456789ABCDEF"`. -/
def upperhex (n : Nat) : Byte :=
  if n < 10 then Fin.ofNat (48 + n) else Fin.ofNat (55 + n)

/-- The function `ishex`. -/
def ishex (c : Byte) : Bool :=
  (48 ≤ c.val ∧ c.val ≤ 57) ∨ (97 ≤ c.val ∧ c.val ≤ 102) ∨ (65 ≤ c.val ∧ c.val ≤ 70)

/-- The function `unhex`. -/
def unhex (c : Byte) : Nat :=
  if 48 ≤ c.val ∧ c.val ≤ 57 then c.val - 48
  else if 97 ≤ c.val ∧ c.val ≤ 102 then c.val - 97 + 10
  else if 65 ≤ c.val ∧ c.val ≤ 70 then c.val - 65 + 10
  else 0

/-- What `escape(s, encodeQueryComponent)` writes for one byte: `+` for a space,
`%XX` for a byte that must be escaped, the byte itself otherwise. -/
def escapeByte (c : Byte) : GoString :=
  if c.val = 32 then [43]
  else if shouldEscape c then [37, upperhex (c.val / 16), upperhex (c.val % 16)]
  else [c]

/-- The function `url.QueryEscape`. -/
def QueryEscape (s : GoString) : GoString :=
  s.flatMap escapeByte

/-- The function `url.QueryUnescape`: `%XX` is one byte, `+` is a space; a `%` that is
not followed by two hex digits is the `EscapeError` of at most three bytes from it. -/
def QueryUnescape (lib : Lib) : GoString → Except GoError GoString
  | [] => Except.ok []
  | c :: rest =>
    if c.val = 37 then
      match rest with
      | h :: l :: rest2 =>
        if ishex h && ishex l then
          (QueryUnescape lib rest2).map (fun t => Fin.ofNat (unhex h * 16 + unhex l) :: t)
        else
          Except.error (GoError.plain (str "invalid URL escape " ++ lib.Quote [c, h, l]))
      | _ => Except.error (GoError.plain (str "invalid URL escape " ++ lib.Quote (c :: rest)))
    else if c.val = 43 then (QueryUnescape lib rest).map (fun t => (32 : Byte) :: t)
    else (QueryUnescape lib rest).map (fun t => c :: t)

/-- The call `strings.Cut(s, sep)` for a separator of one byte. -/
def cut (sep : Byte) : GoString → GoString × GoString × Bool
  | [] => ([], [], false)
  | c :: rest =>
    if c = sep then ([], rest, true)
    else
      match cut sep rest with
      | (before, after, found) => (c :: before, after, found)

/-- The loop of `url.parseQuery`, one iteration for each unit of fuel. -/
def parseQueryLoop (lib : Lib) : Nat → GoString → Values → Option GoError → Values × Option GoError
  | 0, _, m, err => (m, err)
  | fuel + 1, query, m, err =>
    if query = [] then (m, err)
    else
      let pieces := cut 38 query
      let key := pieces.1
      let rest := pieces.2.1
      if 59 ∈ key then
        parseQueryLoop lib fuel rest m (some (GoError.plain (str "invalid semicolon separator in query")))
      else if key = [] then parseQueryLoop lib fuel rest m err
      else
        let kv := cut 61 key
        match QueryUnescape lib kv.1 with
        | Except.error err1 => parseQueryLoop lib fuel rest m (if err.isNone then some err1 else err)
        | Except.ok k =>
          match QueryUnescape lib kv.2.1 with
          | Except.error err1 => parseQueryLoop lib fuel rest m (if err.isNone then some err1 else err)
          | Except.ok value => parseQueryLoop lib fuel rest (Values.Add m k value) err

/-- The function `url.ParseQuery`; every iteration of the loop removes a byte of the
query at least, so its length is fuel enough. -/
def ParseQuery (lib : Lib) (query : GoString) : Values × Option GoError :=
  parseQueryLoop lib query.length query [] none

/-- The method `Values.Encode`: `key=value` pairs joined by `&`, keys sorted. -/
def Values.Encode (v : Values) : GoString :=
  (sortStrings (v.map Prod.fst)).foldl (fun buf k =>
    ((v.lookup k).getD []).foldl (fun buf value =>
      (if buf.length > 0 then buf ++ [38] else buf) ++ QueryEscape k ++ [61] ++ QueryEscape value)
      buf) []

/-- The method `Header.Set`: `h[CanonicalMIMEHeaderKey(key)] = []string{value}`. -/
def Header.Set (lib : Lib) (h : Header) (key value : GoString) : Header :=
  (lib.CanonicalMIMEHeaderKey key, [value]) ::
    h.filter (fun e => decide (e.1 ≠ lib.CanonicalMIMEHeaderKey key))

/-! ## client/client.go -/

/-- The type `APIClient`; `Do` is the method of the embedded `*http.Client`, with the
context of the request. -/
structure APIClient where
  Do : Request → Except GoError Response
  baseUrl : URL
  apiKey : GoString

/-- The method `newRequest`. -/
def APIClient.newRequest (lib : Lib) (c : APIClient) (method path : GoString) :
    Except GoError Request :=
  match lib.Parse path with
  | Except.error err => Except.error (errorfW (str "failed to parse path: ") err)
  | Except.ok rel =>
    let fullURL := lib.ResolveReference c.baseUrl rel
    lib.NewRequestWithContext method (lib.URLString fullURL)

/-- The method `cmcReq`. -/
def APIClient.cmcReq (lib : Lib) (c : APIClient) (ex : Exchange) : Except GoError Request :=
  match c.newRequest lib (str "GET") (str "/v2/tools/price-conversion") with
  | Except.error err => Except.error (errorfW (str "could not create request: ") err)
  | Except.ok req =>
    let h1 := Header.Set lib req.Header (str "Accept") (str "application/json")
    let h2 := Header.Set lib h1 (str "X-CMC_PRO_API_KEY") c.apiKey
    let q0 : Values := []
    let q1 := q0.Add (str "amount") (lib.FormatF2 ex.Amount)
    let q2 := q1.Add (str "symbol") ex.From
    let q3 := q2.Add (str "convert") ex.To
    Except.ok { req with Header := h2, URL := { req.URL with RawQuery := q3.Encode } }

/-- The method `cmcRes`. -/
def APIClient.cmcRes (lib : Lib) (_c : APIClient) (body : GoString) : Except GoError cmcRes :=
  match lib.Unmarshal body with
  | Except.error err => Except.error (errorfW (str "could not decode data from CMC: ") err)
  | Except.ok res => Except.ok res

/-- The method `Exchange`. -/
def APIClient.Exchange (lib : Lib) (c : APIClient) (ex : Exchange) : Float64 × Option GoError :=
  match c.cmcReq lib ex with
  | Except.error err => (Float64.zero, some err)
  | Except.ok req =>
    match c.Do req with
    | Except.error err => (Float64.zero, some (errorfW (str "could not get data from CMC: ") err))
    | Except.ok resp =>
      match resp.Body with
      | Except.error err =>
        (Float64.zero, some (errorfW (str "could not read data from CMC: ") err))
      | Except.ok body =>
        if resp.StatusCode ≠ 200 then
          (Float64.zero, some (GoError.plain (str "CMC unexpected status code: " ++ resp.Status)))
        else
          match c.cmcRes lib body with
          | Except.error err => (Float64.zero, some err)
          | Except.ok res =>
            match res.Data.lookup ex.From with
            | none => (Float64.zero, some (GoError.plain (str "missing data for " ++ lib.Quote ex.From)))
            | some d =>
              match d.Quote.lookup ex.To with
              | none =>
                (Float64.zero, some (GoError.plain (str "missing quote for " ++ lib.Quote ex.To)))
              | some qt => (qt.Price, none)

/-! ## Fixtures

The values the Go library returns on the inputs of the examples further down, and the
canned server responses of `client_test.go`.  A fixture answers every other input with a
fixed value that no example reaches. -/

/-- The `float64` 1. -/
def f64_1 : Float64 := ⟨0x3FF0000000000000⟩

/-- The `float64` nearest to 123.45. -/
def f64_123_45 : Float64 := ⟨0x405EDCCCCCCCCCCD⟩

/-- The `float64` 42. -/
def f64_42 : Float64 := ⟨0x4045000000000000⟩

/-- The `float64` -5. -/
def f64_neg5 : Float64 := ⟨0xC014000000000000⟩

/-- The `float64` that `strconv.ParseFloat("NaN", 64)` returns. -/
def f64_NaN : Float64 := ⟨0x7FF8000000000001⟩

/-- The body `{"data":{"USD":{"quote":{"BTC":{"price":123.45}}}}}`. -/
def bodyOK : GoString :=
  str "\x7b\x22data\x22:\x7b\x22USD\x22:\x7b\x22quote\x22:\x7b\x22BTC\x22:\x7b\x22price\x22:123.45\x7d\x7d\x7d\x7d\x7d"

/-- The body `{"data":{}}`. -/
def bodyNoData : GoString := str "\x7b\x22data\x22:\x7b\x7d\x7d"

/-- The body `{"data":{"USD":{"quote":{}}}}`. -/
def bodyNoQuote : GoString :=
  str "\x7b\x22data\x22:\x7b\x22USD\x22:\x7b\x22quote\x22:\x7b\x7d\x7d\x7d\x7d"

/-- The body `{"data":{"USD":{"quote":{"BTC":{"price":-5}}}}}`. -/
def bodyNegative : GoString :=
  str "\x7b\x22data\x22:\x7b\x22USD\x22:\x7b\x22quote\x22:\x7b\x22BTC\x22:\x7b\x22price\x22:-5\x7d\x7d\x7d\x7d\x7d"

/-- The truncated body `{`. -/
def bodyTruncated : GoString := str "\x7b"

/-- The library on the inputs of the examples. -/
def fixtureLib : Lib where
  ParseFloat := fun s =>
    if s = str "123.45" then Except.ok f64_123_45
    else if s = str "1" then Except.ok f64_1
    else if s = str "0" then Except.ok Float64.zero
    else if s = str "-5" then Except.ok f64_neg5
    else if s = str "NaN" then Except.ok f64_NaN
    else Except.error (GoError.wrap
      (str "strconv.ParseFloat: parsing " ++ [34] ++ s ++ [34] ++ str ": invalid syntax")
      (GoError.plain (str "invalid syntax")))
  MapToUpper := fun s => s
  FormatF2 := fun f =>
    if f = f64_123_45 then str "123.45"
    else if f = f64_1 then str "1.00"
    else if f = Float64.zero then str "0.00"
    else if f = f64_neg5 then str "-5.00"
    else if f = f64_42 then str "42.00"
    else str "NaN"
  FormatV := fun f =>
    if f = f64_123_45 then str "123.45"
    else if f = f64_1 then str "1"
    else if f = Float64.zero then str "0"
    else if f = f64_neg5 then str "-5"
    else if f = f64_42 then str "42"
    else str "NaN"
  Quote := fun s => [34] ++ s ++ [34]
  Unmarshal := fun body =>
    if body = bodyOK then
      Except.ok ⟨[(str "USD", ⟨[(str "BTC", ⟨f64_123_45⟩)]⟩)]⟩
    else if body = bodyNegative then
      Except.ok ⟨[(str "USD", ⟨[(str "BTC", ⟨f64_neg5⟩)]⟩)]⟩
    else if body = bodyNoData then Except.ok ⟨[]⟩
    else if body = bodyNoQuote then Except.ok ⟨[(str "USD", ⟨[]⟩)]⟩
    else Except.error (GoError.plain (str "unexpected end of JSON input"))
  Parse := fun s => Except.ok ⟨[], [], s, []⟩
  ResolveReference := fun base ref => { base with Path := ref.Path, RawQuery := ref.RawQuery }
  URLString := fun u => u.Scheme ++ str "://" ++ u.Host ++ u.Path
  NewRequestWithContext := fun method _ =>
    Except.ok ⟨method, ⟨str "http", str "127.0.0.1", str "/v2/tools/price-conversion", []⟩, []⟩
  CanonicalMIMEHeaderKey := fun s =>
    if s = str "X-CMC_PRO_API_KEY" then str "X-Cmc_pro_api_key" else s

/-- A client, as `newAPIClient` of `client_test.go` makes it, whose server answers every
request with `resp`. -/
def fixtureClient (resp : Response) : APIClient where
  Do := fun _ => Except.ok resp
  baseUrl := ⟨str "http", str "127.0.0.1", [], []⟩
  apiKey := str "test-key"

/-- The type `fakeExchange` of `main_test.go`: it answers `res` and `err`. -/
def fakeExchange (res : Float64) (err : Option GoError) : Exchanger :=
  fun _ => (res, err)

/-- The request `{Amount: 1, From: "USD", To: "BTC"}` of the client tests. -/
def exUsdBtc : Exchange := ⟨f64_1, str "USD", str "BTC"⟩

/-! ## The words of the spec -/

/-- The announcement line `Exchange <amount> <FROM> to <TO>`, with its newline. -/
def announcementLine (lib : Lib) (amount : Float64) (from_ to_ : GoString) : GoString :=
  str "Exchange " ++ lib.FormatV amount ++ str " " ++ from_ ++ str " to " ++ to_ ++ str "\n"

/-- The result line `You received <r> <TO>`, with its newline. -/
def resultLine (lib : Lib) (r : Float64) (to_ : GoString) : GoString :=
  str "You received " ++ lib.FormatV r ++ str " " ++ to_ ++ str "\n"

/-- The Unicode branch of `strings.ToUpper` gives a string that is its own uppercase
form: a property of the case table of the Go library. -/
def UpperStable (lib : Lib) : Prop :=
  ∀ s : GoString, s.all (fun c => decide (c.val < 128)) = false →
    ToUpper lib (lib.MapToUpper s) = lib.MapToUpper s

/-! ## Lemmas: query strings -/

theorem unhex_upperhex (n : Nat) (h : n < 16) :
    unhex (upperhex n) = n ∧ ishex (upperhex n) = true := by
  interval_cases n <;> decide

theorem upperhex_val (n : Nat) (h : n < 16) :
    (48 ≤ (upperhex n).val ∧ (upperhex n).val ≤ 57) ∨
      (65 ≤ (upperhex n).val ∧ (upperhex n).val ≤ 70) := by
  interval_cases n <;> decide

theorem QueryUnescape_cons (lib : Lib) (c : Byte) (t : GoString)
    (h37 : c.val ≠ 37) (h43 : c.val ≠ 43) :
    QueryUnescape lib (c :: t) = (QueryUnescape lib t).map (fun u => c :: u) := by
  rw [QueryUnescape.eq_def]
  simp only [h37, h43, if_false]

theorem QueryUnescape_plus (lib : Lib) (t : GoString) :
    QueryUnescape lib (43 :: t) = (QueryUnescape lib t).map (fun u => (32 : Byte) :: u) := by
  rw [QueryUnescape.eq_def]
  rfl

theorem QueryUnescape_percent (lib : Lib) (h l : Byte) (t : GoString)
    (hh : ishex h = true) (hl : ishex l = true) :
    QueryUnescape lib (37 :: h :: l :: t) =
      (QueryUnescape lib t).map (fun u => (Fin.ofNat (unhex h * 16 + unhex l) : Byte) :: u) := by
  rw [QueryUnescape.eq_def]
  simp only [hh, hl]
  rfl

theorem QueryUnescape_escapeByte (lib : Lib) (c : Byte) (t : GoString) :
    QueryUnescape lib (escapeByte c ++ t) = (QueryUnescape lib t).map (fun u => c :: u) := by
  unfold escapeByte
  by_cases h32 : c.val = 32
  · have hc : c = (32 : Byte) := Fin.ext h32
    rw [if_pos h32, hc]
    exact QueryUnescape_plus lib t
  · rw [if_neg h32]
    by_cases hesc : shouldEscape c = true
    · rw [if_pos hesc]
      have h1 := unhex_upperhex (c.val / 16) (by omega)
      have h2 := unhex_upperhex (c.val % 16) (by omega)
      have hb : (Fin.ofNat (c.val / 16 * 16 + c.val % 16) : Byte) = c := by
        apply Fin.ext
        show (c.val / 16 * 16 + c.val % 16) % 256 = c.val
        omega
      show QueryUnescape lib (37 :: upperhex (c.val / 16) :: upperhex (c.val % 16) :: t) = _
      rw [QueryUnescape_percent lib _ _ t h1.2 h2.2, h1.1, h2.1, hb]
    · rw [if_neg hesc]
      have hne : c.val ≠ 37 ∧ c.val ≠ 43 := by
        unfold shouldEscape at hesc
        split_ifs at hesc <;> first | omega | exact absurd rfl hesc
      exact QueryUnescape_cons lib c t hne.1 hne.2

theorem QueryUnescape_QueryEscape_append (lib : Lib) (s t : GoString) :
    QueryUnescape lib (QueryEscape s ++ t) = (QueryUnescape lib t).map (fun u => s ++ u) := by
  induction s with
  | nil =>
    simp only [QueryEscape, List.flatMap_nil, List.nil_append]
    cases QueryUnescape lib t <;> rfl
  | cons c s ih =>
    have : QueryEscape (c :: s) ++ t = escapeByte c ++ (QueryEscape s ++ t) := by
      simp [QueryEscape]
    rw [this, QueryUnescape_escapeByte, ih]
    cases h : QueryUnescape lib t <;> simp [Except.map]

theorem QueryUnescape_QueryEscape (lib : Lib) (s : GoString) :
    QueryUnescape lib (QueryEscape s) = Except.ok s := by
  have h := QueryUnescape_QueryEscape_append lib s []
  simpa [QueryUnescape, Except.map] using h

theorem escapeByte_safe (c b : Byte) (hb : b ∈ escapeByte c) :
    b.val ≠ 38 ∧ b.val ≠ 61 ∧ b.val ≠ 59 := by
  unfold escapeByte at hb
  split_ifs at hb with h32 hesc
  · simp at hb
    subst hb
    decide
  · have h1 := upperhex_val (c.val / 16) (by omega)
    have h2 := upperhex_val (c.val % 16) (by omega)
    simp at hb
    rcases hb with hb | hb | hb
    · subst hb
      decide
    · subst hb
      omega
    · subst hb
      omega
  · simp at hb
    subst hb
    unfold shouldEscape at hesc
    split_ifs at hesc <;> first | omega | exact absurd rfl hesc

theorem QueryEscape_safe (s : GoString) (b : Byte) (hb : b ∈ QueryEscape s) :
    b.val ≠ 38 ∧ b.val ≠ 61 ∧ b.val ≠ 59 := by
  unfold QueryEscape at hb
  rw [List.mem_flatMap] at hb
  obtain ⟨c, _, hc⟩ := hb
  exact escapeByte_safe c b hc

theorem cut_not_mem (sep : Byte) (a : GoString) (h : sep ∉ a) :
    cut sep a = (a, [], false) := by
  induction a with
  | nil => rfl
  | cons c a ih =>
    have hc : c ≠ sep := fun e => h (by simp [e])
    have ha : sep ∉ a := fun e => h (by simp [e])
    simp [cut, hc, ih ha]

theorem cut_append (sep : Byte) (a b : GoString) (h : sep ∉ a) :
    cut sep (a ++ sep :: b) = (a, b, true) := by
  induction a with
  | nil => simp [cut]
  | cons c a ih =>
    have hc : c ≠ sep := fun e => h (by simp [e])
    have ha : sep ∉ a := fun e => h (by simp [e])
    simp [cut, hc, ih ha]

theorem add_three (a f t : GoString) :
    Values.Add (Values.Add (Values.Add [] (str "amount") a) (str "symbol") f) (str "convert") t =
      [(str "amount", [a]), (str "symbol", [f]), (str "convert", [t])] := by
  rfl

theorem encode_three (a f t : GoString) :
    Values.Encode [(str "amount", [a]), (str "symbol", [f]), (str "convert", [t])] =
      str "amount=" ++ QueryEscape a ++ str "&convert=" ++ QueryEscape t ++
        str "&symbol=" ++ QueryEscape f := by
  have hkeys : sortStrings [str "amount", str "symbol", str "convert"] =
      [str "amount", str "convert", str "symbol"] := by decide
  have h1 : List.lookup (str "amount")
      [(str "amount", [a]), (str "symbol", [f]), (str "convert", [t])] = some [a] := by rfl
  have h2 : List.lookup (str "convert")
      [(str "amount", [a]), (str "symbol", [f]), (str "convert", [t])] = some [t] := by rfl
  have h3 : List.lookup (str "symbol")
      [(str "amount", [a]), (str "symbol", [f]), (str "convert", [t])] = some [f] := by rfl
  have e1 : QueryEscape (str "amount") = str "amount" := by decide
  have e2 : QueryEscape (str "convert") = str "convert" := by decide
  have e3 : QueryEscape (str "symbol") = str "symbol" := by decide
  have hl : (str "amount").length = 6 := by decide
  have hs1 : str "amount=" = str "amount" ++ [61] := by decide
  have hs2 : str "&convert=" = [38] ++ str "convert" ++ [61] := by decide
  have hs3 : str "&symbol=" = [38] ++ str "symbol" ++ [61] := by decide
  simp only [Values.Encode, List.map, hkeys, List.foldl, h1, h2, h3, Option.getD, e1, e2, e3]
  simp [hl, hs1, hs2, hs3, List.append_assoc]

theorem cut_rest_le (sep : Byte) (s : GoString) : (cut sep s).2.1.length ≤ s.length := by
  induction s with
  | nil => simp [cut]
  | cons c s ih =>
    by_cases hc : c = sep
    · simp [cut, hc]
    · rcases hcut : cut sep s with ⟨before, after, found⟩
      rw [hcut] at ih
      simp only [cut, hc, if_false, hcut, List.length_cons] at ih ⊢
      omega

theorem cut_rest_lt (sep : Byte) (s : GoString) (hs : s ≠ []) :
    (cut sep s).2.1.length < s.length := by
  cases s with
  | nil => exact absurd rfl hs
  | cons c s =>
    by_cases hc : c = sep
    · simp [cut, hc]
    · have hle := cut_rest_le sep s
      rcases hcut : cut sep s with ⟨before, after, found⟩
      rw [hcut] at hle
      simp only [cut, hc, if_false, hcut, List.length_cons] at hle ⊢
      omega

theorem parseQueryLoop_nil (lib : Lib) (fuel : Nat) (m : Values) (err : Option GoError) :
    parseQueryLoop lib fuel [] m err = (m, err) := by
  cases fuel <;> simp [parseQueryLoop]

/-- Fuel: the loop of `parseQuery` gives the same result for every fuel that is not
less than the length of the query, so `ParseQuery` never stops for want of fuel. -/
theorem parseQueryLoop_fuel (lib : Lib) (f1 : Nat) :
    ∀ (f2 : Nat) (query : GoString) (m : Values) (err : Option GoError),
      query.length ≤ f1 → query.length ≤ f2 →
        parseQueryLoop lib f1 query m err = parseQueryLoop lib f2 query m err := by
  induction f1 with
  | zero =>
    intro f2 query m err h1 _
    have hq : query = [] := List.length_eq_zero.mp (Nat.le_zero.mp h1)
    rw [hq, parseQueryLoop_nil, parseQueryLoop_nil]
  | succ f1 ih =>
    intro f2 query m err h1 h2
    by_cases hq : query = []
    · rw [hq, parseQueryLoop_nil, parseQueryLoop_nil]
    · cases f2 with
      | zero => exact absurd (List.length_eq_zero.mp (Nat.le_zero.mp h2)) hq
      | succ f2 =>
        have hlt := cut_rest_lt 38 query hq
        have r1 : (cut 38 query).2.1.length ≤ f1 := by omega
        have r2 : (cut 38 query).2.1.length ≤ f2 := by omega
        rw [parseQueryLoop, parseQueryLoop]
        simp only [hq, if_false]
        by_cases h59 : (59 : Byte) ∈ (cut 38 query).1
        · simp only [h59, if_true]
          exact ih f2 _ _ _ r1 r2
        · by_cases hk : (cut 38 query).1 = []
          · simp only [h59, hk, if_true, if_false]
            exact ih f2 _ _ _ r1 r2
          · simp only [h59, hk, if_false]
            cases QueryUnescape lib (cut 61 (cut 38 query).1).1 with
            | error e1 => exact ih f2 _ _ _ r1 r2
            | ok k =>
              cases QueryUnescape lib (cut 61 (cut 38 query).1).2.1 with
              | error e1 => exact ih f2 _ _ _ r1 r2
              | ok value => exact ih f2 _ _ _ r1 r2

theorem pair_safe (k v : GoString) (b : Byte) (hb : b ∈ QueryEscape k ++ 61 :: QueryEscape v) :
    b.val ≠ 38 ∧ b.val ≠ 59 := by
  rw [List.mem_append, List.mem_cons] at hb
  rcases hb with hb | hb | hb
  · exact ⟨(QueryEscape_safe k b hb).1, (QueryEscape_safe k b hb).2.2⟩
  · subst hb
    decide
  · exact ⟨(QueryEscape_safe v b hb).1, (QueryEscape_safe v b hb).2.2⟩

theorem parseQueryLoop_piece (lib : Lib) (fuel : Nat) (k v query rest : GoString) (found : Bool)
    (m : Values) (err : Option GoError)
    (hcut : cut 38 query = (QueryEscape k ++ 61 :: QueryEscape v, rest, found)) :
    parseQueryLoop lib (fuel + 1) query m err = parseQueryLoop lib fuel rest (Values.Add m k v) err := by
  have hne : query ≠ [] := by
    intro h
    rw [h] at hcut
    simp [cut] at hcut
  have h59 : (59 : Byte) ∉ QueryEscape k ++ 61 :: QueryEscape v := fun h =>
    (pair_safe k v 59 h).2 rfl
  have h61 : (61 : Byte) ∉ QueryEscape k := fun h => (QueryEscape_safe k 61 h).2.1 rfl
  have hkv : cut 61 (QueryEscape k ++ 61 :: QueryEscape v) = (QueryEscape k, QueryEscape v, true) :=
    cut_append 61 _ _ h61
  have hpne : QueryEscape k ++ 61 :: QueryEscape v ≠ [] := by simp
  rw [parseQueryLoop]
  simp only [hne, if_false, hcut, h59, hpne, hkv, QueryUnescape_QueryEscape]

theorem parseQuery_three (lib : Lib) (a f t : GoString) :
    ParseQuery lib (str "amount=" ++ QueryEscape a ++ str "&convert=" ++ QueryEscape t ++
        str "&symbol=" ++ QueryEscape f) =
      ([(str "amount", [a]), (str "convert", [t]), (str "symbol", [f])], none) := by
  have e1 : str "amount=" = QueryEscape (str "amount") ++ [61] := by decide
  have e2 : str "&convert=" = 38 :: QueryEscape (str "convert") ++ [61] := by decide
  have e3 : str "&symbol=" = 38 :: QueryEscape (str "symbol") ++ [61] := by decide
  have hq : str "amount=" ++ QueryEscape a ++ str "&convert=" ++ QueryEscape t ++
        str "&symbol=" ++ QueryEscape f =
      (QueryEscape (str "amount") ++ 61 :: QueryEscape a) ++ 38 ::
        ((QueryEscape (str "convert") ++ 61 :: QueryEscape t) ++ 38 ::
          (QueryEscape (str "symbol") ++ 61 :: QueryEscape f)) := by
    rw [e1, e2, e3]
    simp [List.append_assoc]
  have n38 : ∀ k v : GoString, (38 : Byte) ∉ QueryEscape k ++ 61 :: QueryEscape v := fun k v h =>
    (pair_safe k v 38 h).1 rfl
  obtain ⟨n, hn⟩ : ∃ n, (str "amount=" ++ QueryEscape a ++ str "&convert=" ++ QueryEscape t ++
        str "&symbol=" ++ QueryEscape f).length = n + 3 := by
    refine ⟨(QueryEscape a).length + (QueryEscape t).length + (QueryEscape f).length + 21, ?_⟩
    have l1 : (str "amount=").length = 7 := by decide
    have l2 : (str "&convert=").length = 9 := by decide
    have l3 : (str "&symbol=").length = 8 := by decide
    simp only [List.length_append, l1, l2, l3]
    omega
  unfold ParseQuery
  rw [hn, hq]
  rw [parseQueryLoop_piece lib (n + 2) (str "amount") a _ _ true [] none (cut_append 38 _ _ (n38 _ _))]
  rw [parseQueryLoop_piece lib (n + 1) (str "convert") t _ _ true _ none (cut_append 38 _ _ (n38 _ _))]
  rw [parseQueryLoop_piece lib n (str "symbol") f _ _ false _ none (cut_not_mem 38 _ (n38 _ _))]
  rw [parseQueryLoop_nil]
  rfl

/-! ## Theorems: the exchange client -/

/-- C1: when the request is built, the round trip and the read of the body succeed, the
status is 200, the body decodes, `data[From]` exists and `data[From].quote[To]` exists
with price `p`, `Exchange` returns `(p, nil)`, whatever `p` is. -/
theorem exchange_returns_price (lib : Lib) (c : APIClient) (ex : Exchange) (req : Request)
    (resp : Response) (body : GoString) (res : cmcRes) (d : data) (qt : quote)
    (hreq : c.cmcReq lib ex = Except.ok req) (hdo : c.Do req = Except.ok resp)
    (hbody : resp.Body = Except.ok body) (hstatus : resp.StatusCode = 200)
    (hdec : lib.Unmarshal body = Except.ok res)
    (hd : res.Data.lookup ex.From = some d) (hq : d.Quote.lookup ex.To = some qt) :
    c.Exchange lib ex = (qt.Price, none) := by
  simp [APIClient.Exchange, APIClient.cmcRes, hreq, hdo, hbody, hstatus, hdec, hd, hq]

/-- Witness of C1: the server of `TestAPIClient_Exchange_OK`, and a server that quotes
the negative price -5. -/
theorem exchange_returns_price_witness :
    (fixtureClient ⟨200, str "200 OK", Except.ok bodyOK⟩).Exchange fixtureLib
        ⟨f64_123_45, str "USD", str "BTC"⟩ = (f64_123_45, none) ∧
      (fixtureClient ⟨200, str "200 OK", Except.ok bodyNegative⟩).Exchange fixtureLib
        exUsdBtc = (f64_neg5, none) ∧ f64_neg5.lt0 = true :=
  ⟨exchange_returns_price fixtureLib (fixtureClient ⟨200, str "200 OK", Except.ok bodyOK⟩)
    ⟨f64_123_45, str "USD", str "BTC"⟩ _ _ bodyOK
    ⟨[(str "USD", ⟨[(str "BTC", ⟨f64_123_45⟩)]⟩)]⟩ ⟨[(str "BTC", ⟨f64_123_45⟩)]⟩ ⟨f64_123_45⟩
    rfl rfl rfl rfl rfl (by decide) (by decide),
   exchange_returns_price fixtureLib (fixtureClient ⟨200, str "200 OK", Except.ok bodyNegative⟩)
    exUsdBtc _ _ bodyNegative
    ⟨[(str "USD", ⟨[(str "BTC", ⟨f64_neg5⟩)]⟩)]⟩ ⟨[(str "BTC", ⟨f64_neg5⟩)]⟩ ⟨f64_neg5⟩
    rfl rfl rfl rfl rfl (by decide) (by decide),
   by decide⟩

/-- C2: on a status 200 response whose body decodes, a `From` that is not a key of `data`
gives the error `missing data for ` followed by the quoted `From`, whatever the rest of
the response holds; a `From` that is a key whose `quote` lacks `To` gives the error
`missing quote for ` followed by the quoted `To`; each message ends in the quoted key. -/
theorem exchange_missing_key (lib : Lib) (c : APIClient) (ex : Exchange) (req : Request)
    (resp : Response) (body : GoString) (res : cmcRes)
    (hreq : c.cmcReq lib ex = Except.ok req) (hdo : c.Do req = Except.ok resp)
    (hbody : resp.Body = Except.ok body) (hstatus : resp.StatusCode = 200)
    (hdec : lib.Unmarshal body = Except.ok res) :
    (res.Data.lookup ex.From = none →
      c.Exchange lib ex =
        (Float64.zero, some (GoError.plain (str "missing data for " ++ lib.Quote ex.From))) ∧
      lib.Quote ex.From <:+
        (GoError.plain (str "missing data for " ++ lib.Quote ex.From)).Error) ∧
    (∀ d : data, res.Data.lookup ex.From = some d → d.Quote.lookup ex.To = none →
      c.Exchange lib ex =
        (Float64.zero, some (GoError.plain (str "missing quote for " ++ lib.Quote ex.To))) ∧
      lib.Quote ex.To <:+
        (GoError.plain (str "missing quote for " ++ lib.Quote ex.To)).Error) := by
  refine ⟨fun hd => ⟨?_, List.suffix_append _ _⟩, fun d hd hq => ⟨?_, List.suffix_append _ _⟩⟩
  · simp [APIClient.Exchange, APIClient.cmcRes, hreq, hdo, hbody, hstatus, hdec, hd]
  · simp [APIClient.Exchange, APIClient.cmcRes, hreq, hdo, hbody, hstatus, hdec, hd, hq]

/-- Witness of C2: the servers of `TestAPIClient_Exchange_MissingDataKey` and of
`TestAPIClient_Exchange_MissingQuoteKey`. -/
theorem exchange_missing_key_witness :
    (fixtureClient ⟨200, str "200 OK", Except.ok bodyNoData⟩).Exchange fixtureLib exUsdBtc =
        (Float64.zero, some (GoError.plain (str "missing data for \x22USD\x22"))) ∧
      (fixtureClient ⟨200, str "200 OK", Except.ok bodyNoQuote⟩).Exchange fixtureLib exUsdBtc =
        (Float64.zero, some (GoError.plain (str "missing quote for \x22BTC\x22"))) :=
  ⟨((exchange_missing_key fixtureLib (fixtureClient ⟨200, str "200 OK", Except.ok bodyNoData⟩)
      exUsdBtc _ _ bodyNoData ⟨[]⟩ rfl rfl rfl rfl rfl).1 (by decide)).1,
   ((exchange_missing_key fixtureLib (fixtureClient ⟨200, str "200 OK", Except.ok bodyNoQuote⟩)
      exUsdBtc _ _ bodyNoQuote ⟨[(str "USD", ⟨[]⟩)]⟩ rfl rfl rfl rfl rfl).2 ⟨[]⟩
      (by decide) (by decide)).1⟩

/-- C4: on a status 200 response whose body `json.Unmarshal` rejects with the error
`cause`, `Exchange` returns no price but the error whose message is
`could not decode data from CMC: ` followed by the message of `cause`, that starts with
the marker and wraps `cause`; this error is no missing-data and no missing-quote error. -/
theorem exchange_decode_error (lib : Lib) (c : APIClient) (ex : Exchange) (req : Request)
    (resp : Response) (body : GoString) (cause : GoError)
    (hreq : c.cmcReq lib ex = Except.ok req) (hdo : c.Do req = Except.ok resp)
    (hbody : resp.Body = Except.ok body) (hstatus : resp.StatusCode = 200)
    (hdec : lib.Unmarshal body = Except.error cause) :
    ∃ err : GoError, c.Exchange lib ex = (Float64.zero, some err) ∧
      err.Error = str "could not decode data from CMC" ++ str ": " ++ cause.Error ∧
      str "could not decode data from CMC" <+: err.Error ∧
      err.Unwrap = some cause ∧ err.Is cause = true ∧
      ∀ key : GoString, err ≠ GoError.plain (str "missing data for " ++ lib.Quote key) ∧
        err ≠ GoError.plain (str "missing quote for " ++ lib.Quote key) := by
  refine ⟨errorfW (str "could not decode data from CMC: ") cause, ?_, ?_, ?_, rfl, ?_, ?_⟩
  · simp [APIClient.Exchange, APIClient.cmcRes, hreq, hdo, hbody, hstatus, hdec]
  · have h : str "could not decode data from CMC: " =
        str "could not decode data from CMC" ++ str ": " := by decide
    simp [errorfW, GoError.Error, h]
  · have h : str "could not decode data from CMC: " =
        str "could not decode data from CMC" ++ str ": " := by decide
    simp [errorfW, GoError.Error, h]
  · cases cause <;> simp [errorfW, GoError.Is]
  · intro key
    simp [errorfW]

/-- Witness of C4: the server of `TestAPIClient_Exchange_BadJSON`. -/
theorem exchange_decode_error_witness :
    ∃ err : GoError,
      (fixtureClient ⟨200, str "200 OK", Except.ok bodyTruncated⟩).Exchange fixtureLib exUsdBtc =
        (Float64.zero, some err) ∧
      err.Error = str "could not decode data from CMC" ++ str ": " ++
        (GoError.plain (str "unexpected end of JSON input")).Error ∧
      str "could not decode data from CMC" <+: err.Error ∧
      err.Unwrap = some (GoError.plain (str "unexpected end of JSON input")) ∧
      err.Is (GoError.plain (str "unexpected end of JSON input")) = true ∧
      ∀ key : GoString, err ≠ GoError.plain (str "missing data for " ++ fixtureLib.Quote key) ∧
        err ≠ GoError.plain (str "missing quote for " ++ fixtureLib.Quote key) :=
  exchange_decode_error fixtureLib (fixtureClient ⟨200, str "200 OK", Except.ok bodyTruncated⟩)
    exUsdBtc _ _ bodyTruncated (GoError.plain (str "unexpected end of JSON input"))
    rfl rfl rfl rfl rfl

/-- C5: the query string of the request that `cmcReq` builds decodes, without an error,
to the three parameters `amount`, `convert` and `symbol`, each with the one value
`%.2f` of `Amount`, `To` and `From`, byte for byte. -/
theorem cmcReq_query_decodes (lib : Lib) (c : APIClient) (ex : Exchange) (req : Request)
    (hreq : c.cmcReq lib ex = Except.ok req) :
    ParseQuery lib req.URL.RawQuery =
      ([(str "amount", [lib.FormatF2 ex.Amount]), (str "convert", [ex.To]),
        (str "symbol", [ex.From])], none) := by
  unfold APIClient.cmcReq at hreq
  split at hreq
  · exact absurd hreq (by simp)
  · injection hreq with hreq
    subst hreq
    simp only [add_three, encode_three]
    exact parseQuery_three lib _ _ _

/-- Witness of C5: a source symbol with `&`, `=` and a space in it. -/
theorem cmcReq_query_decodes_witness :
    ParseQuery fixtureLib
        (str "amount=123.45&convert=BTC&symbol=U%26S%3D+D") =
      ([(str "amount", [str "123.45"]), (str "convert", [str "BTC"]),
        (str "symbol", [str "U&S= D"])], none) :=
  cmcReq_query_decodes fixtureLib (fixtureClient ⟨200, str "200 OK", Except.ok bodyOK⟩)
    ⟨f64_123_45, str "U&S= D", str "BTC"⟩
    ⟨str "GET", ⟨str "http", str "127.0.0.1", str "/v2/tools/price-conversion",
      str "amount=123.45&convert=BTC&symbol=U%26S%3D+D"⟩,
      [(str "X-Cmc_pro_api_key", [str "test-key"]), (str "Accept", [str "application/json"])]⟩
    rfl

/-! ## Lemmas: the driver -/

theorem gt0_not_le0 (f : Float64) (h : f.gt0 = true) : f.le0 = false := by
  unfold Float64.gt0 at h
  unfold Float64.le0
  simp only [Bool.and_eq_true, Bool.not_eq_true', beq_iff_eq] at h
  obtain ⟨⟨hnan, hzero⟩, hsign⟩ := h
  simp [hnan, hzero, hsign]

theorem not_le0_cases (f : Float64) (h : f.le0 = false) : f.gt0 = true ∨ f.isNaN = true := by
  unfold Float64.le0 at h
  unfold Float64.gt0
  have hs : f.sign = 0 ∨ f.sign = 1 := by
    unfold Float64.sign
    omega
  cases hn : f.isNaN <;> cases hz : f.isZero <;> rcases hs with hs | hs <;>
    simp [hn, hz, hs] at h ⊢

theorem Sprintln_announce (lib : Lib) (amount : Float64) (from_ to_ : GoString) :
    Sprintln [str "Exchange", lib.FormatV amount, from_, str "to", to_] =
      announcementLine lib amount from_ to_ := by
  have h1 : str "Exchange " = str "Exchange" ++ str " " := by decide
  have h2 : str " to " = str " " ++ str "to" ++ str " " := by decide
  simp [Sprintln, announcementLine, List.intercalate, List.intersperse, h1, h2]

theorem Sprintln_result (lib : Lib) (r : Float64) (to_ : GoString) :
    Sprintln [str "You received", lib.FormatV r, to_] = resultLine lib r to_ := by
  have h1 : str "You received " = str "You received" ++ str " " := by decide
  simp [Sprintln, resultLine, List.intercalate, List.intersperse, h1]

theorem Is_self (e : GoError) : e.Is e = true := by
  cases e <;> simp [GoError.Is]

theorem Is_wrap (msg : GoString) (e : GoError) : (GoError.wrap msg e).Is e = true := by
  simp [GoError.Is, Is_self]

theorem upperByte_ascii (c : Byte) (h : c.val < 128) : (upperByte c).val < 128 := by
  unfold upperByte
  split_ifs with hc
  · show (c.val - 32) % 256 < 128
    omega
  · exact h

theorem upperByte_not_lower (c : Byte) :
    ¬ (97 ≤ (upperByte c).val ∧ (upperByte c).val ≤ 122) := by
  unfold upperByte
  split_ifs with hc
  · show ¬ (97 ≤ (c.val - 32) % 256 ∧ (c.val - 32) % 256 ≤ 122)
    omega
  · exact hc

theorem ToUpper_idem (lib : Lib) (hup : UpperStable lib) (s : GoString) :
    ToUpper lib (ToUpper lib s) = ToUpper lib s := by
  by_cases hA : s.all (fun c => decide (c.val < 128)) = true
  · by_cases hL : s.any (fun c => decide (97 ≤ c.val ∧ c.val ≤ 122)) = true
    · have h1 : ToUpper lib s = s.map upperByte := by
        simp only [ToUpper, hA, hL]
        rfl
      have hA2 : (s.map upperByte).all (fun c => decide (c.val < 128)) = true := by
        rw [List.all_eq_true] at hA ⊢
        intro b hb
        rw [List.mem_map] at hb
        obtain ⟨c, hc, rfl⟩ := hb
        have := hA c hc
        simp only [decide_eq_true_eq] at this ⊢
        exact upperByte_ascii c this
      have hL2 : (s.map upperByte).any (fun c => decide (97 ≤ c.val ∧ c.val ≤ 122)) = false := by
        rw [List.any_eq_false]
        intro b hb
        rw [List.mem_map] at hb
        obtain ⟨c, _, rfl⟩ := hb
        simpa using upperByte_not_lower c
      rw [h1]
      simp only [ToUpper, hA2, hL2]
      rfl
    · have hL2 : s.any (fun c => decide (97 ≤ c.val ∧ c.val ≤ 122)) = false := by
        simpa using hL
      have h1 : ToUpper lib s = s := by
        simp only [ToUpper, hA, hL2]
        rfl
      rw [h1, h1]
  · have hA2 : s.all (fun c => decide (c.val < 128)) = false := by
      simpa using hA
    have h1 : ToUpper lib s = lib.MapToUpper s := by
      simp only [ToUpper, hA2]
      rfl
    rw [h1]
    exact hup s hA2

theorem calls_of_execute (lib : Lib) (args : List GoString) (exchanger : Exchanger) :
    (execute lib args exchanger).calls = [] ∨
      ∃ (a f t : GoString) (amount : Float64), args = [a, f, t] ∧
        lib.ParseFloat a = Except.ok amount ∧ amount.le0 = false ∧
        (execute lib args exchanger).calls =
          [{ Amount := amount, From := ToUpper lib f, To := ToUpper lib t }] := by
  by_cases hlen : args.length = 3
  · match args, hlen with
    | [a, f, t], _ =>
      cases hparse : lib.ParseFloat a with
      | error err => left; simp [execute, hparse, Outcome.calls]
      | ok amount =>
        cases hle : amount.le0 with
        | true => left; simp [execute, hparse, hle, Outcome.calls]
        | false =>
          right
          refine ⟨a, f, t, amount, rfl, hparse, hle, ?_⟩
          cases hex : exchanger { Amount := amount, From := ToUpper lib f, To := ToUpper lib t } with
          | mk r e =>
            cases e with
            | none => simp [execute, hparse, hle, hex, Outcome.calls]
            | some e =>
              by_cases hc : (e.Is GoError.canceled || e.Is GoError.deadlineExceeded) = true
              · simp [execute, hparse, hle, hex, Outcome.calls, hc]
              · simp [execute, hparse, hle, hex, Outcome.calls, hc]
  · left
    simp [execute, hlen, Outcome.calls]

/-! ## Theorems: the driver -/

/-- C6: an argument list that fails validation makes `execute` return its error with no
call of the `Exchanger` and nothing written: the usage error when the length is not 3,
an error starting `error parsing amount` when the first argument does not parse, and
`amount cannot be negative or zero: ` followed by `%.2f` of the amount when it is `<= 0`. -/
theorem execute_rejects (lib : Lib) (args : List GoString) (exchanger : Exchanger) :
    (args.length ≠ 3 →
      execute lib args exchanger =
        ⟨some (GoError.plain (str "usage: fxcli <amount> <from> <to>")), []⟩ ∧
      (execute lib args exchanger).calls = [] ∧ (execute lib args exchanger).output = []) ∧
    (∀ (a f t : GoString) (err : GoError), args = [a, f, t] →
      lib.ParseFloat a = Except.error err →
        execute lib args exchanger =
          ⟨some (GoError.plain (str "error parsing amount: " ++ err.Error)), []⟩ ∧
        str "error parsing amount" <+:
          (GoError.plain (str "error parsing amount: " ++ err.Error)).Error ∧
        (execute lib args exchanger).calls = [] ∧ (execute lib args exchanger).output = []) ∧
    (∀ (a f t : GoString) (amount : Float64), args = [a, f, t] →
      lib.ParseFloat a = Except.ok amount → amount.le0 = true →
        execute lib args exchanger =
          ⟨some (GoError.plain
            (str "amount cannot be negative or zero: " ++ lib.FormatF2 amount)), []⟩ ∧
        (execute lib args exchanger).calls = [] ∧ (execute lib args exchanger).output = []) := by
  refine ⟨fun hlen => ?_, fun a f t err hargs hparse => ?_,
    fun a f t amount hargs hparse hle => ?_⟩
  · have h : execute lib args exchanger =
        ⟨some (GoError.plain (str "usage: fxcli <amount> <from> <to>")), []⟩ := by
      simp [execute, hlen]
    rw [h]
    exact ⟨rfl, rfl, rfl⟩
  · subst hargs
    have h : execute lib [a, f, t] exchanger =
        ⟨some (GoError.plain (str "error parsing amount: " ++ err.Error)), []⟩ := by
      simp [execute, hparse]
    have hp : str "error parsing amount: " = str "error parsing amount" ++ str ": " := by decide
    rw [h]
    refine ⟨rfl, ?_, rfl, rfl⟩
    simp [GoError.Error, hp]
  · subst hargs
    have h : execute lib [a, f, t] exchanger =
        ⟨some (GoError.plain
          (str "amount cannot be negative or zero: " ++ lib.FormatF2 amount)), []⟩ := by
      simp [execute, hparse, hle]
    rw [h]
    exact ⟨rfl, rfl, rfl⟩

/-- Witness of C6: no argument, the amount `abc`, the amounts `-5` and `0`. -/
theorem execute_rejects_witness :
    execute fixtureLib [] (fakeExchange f64_42 none) =
        ⟨some (GoError.plain (str "usage: fxcli <amount> <from> <to>")), []⟩ ∧
      execute fixtureLib [str "abc", str "usd", str "btc"] (fakeExchange f64_42 none) =
        ⟨some (GoError.plain (str
          "error parsing amount: strconv.ParseFloat: parsing \x22abc\x22: invalid syntax")), []⟩ ∧
      execute fixtureLib [str "-5", str "usd", str "btc"] (fakeExchange f64_42 none) =
        ⟨some (GoError.plain (str "amount cannot be negative or zero: -5.00")), []⟩ ∧
      (execute fixtureLib [str "0", str "usd", str "btc"] (fakeExchange f64_42 none)).calls = [] :=
  ⟨((execute_rejects fixtureLib [] (fakeExchange f64_42 none)).1 (by decide)).1,
   ((execute_rejects fixtureLib [str "abc", str "usd", str "btc"] (fakeExchange f64_42 none)).2.1
      (str "abc") (str "usd") (str "btc") _ rfl rfl).1,
   ((execute_rejects fixtureLib [str "-5", str "usd", str "btc"] (fakeExchange f64_42 none)).2.2
      (str "-5") (str "usd") (str "btc") f64_neg5 rfl rfl (by decide)).1,
   ((execute_rejects fixtureLib [str "0", str "usd", str "btc"] (fakeExchange f64_42 none)).2.2
      (str "0") (str "usd") (str "btc") Float64.zero rfl rfl (by decide)).2.1⟩

/-- C7: on `[a, f, t]` with `a` parsing to an amount `> 0`, `execute` calls the
`Exchanger` once, with `Amount` the parsed value, `From` the uppercase of `f` and `To`
the uppercase of `t`. -/
theorem execute_calls_once (lib : Lib) (a f t : GoString) (exchanger : Exchanger)
    (amount : Float64) (hparse : lib.ParseFloat a = Except.ok amount)
    (hpos : amount.gt0 = true) :
    (execute lib [a, f, t] exchanger).calls =
      [{ Amount := amount, From := ToUpper lib f, To := ToUpper lib t }] := by
  have hle := gt0_not_le0 amount hpos
  cases hex : exchanger { Amount := amount, From := ToUpper lib f, To := ToUpper lib t } with
  | mk r e =>
    cases e with
    | none => simp [execute, hparse, hle, hex, Outcome.calls]
    | some e =>
      by_cases hc : (e.Is GoError.canceled || e.Is GoError.deadlineExceeded) = true
      · simp [execute, hparse, hle, hex, Outcome.calls, hc]
      · simp [execute, hparse, hle, hex, Outcome.calls, hc]

/-- Witness of C7: the run of `TestExecute_OK`, `usd` and `btc` in lower case. -/
theorem execute_calls_once_witness :
    (execute fixtureLib [str "123.45", str "usd", str "btc"] (fakeExchange f64_42 none)).calls =
      [{ Amount := f64_123_45, From := str "USD", To := str "BTC" }] :=
  execute_calls_once fixtureLib (str "123.45") (str "usd") (str "btc")
    (fakeExchange f64_42 none) f64_123_45 rfl (by decide)

/-- C8: when the `Exchanger` returns the error `e`, `execute` returns `e` itself if `e`
is or wraps `context.Canceled` or `context.DeadlineExceeded`; otherwise it returns a new
error with the message `cannot get exchange rate: ` followed by the message of `e`,
whose cause is `e`. -/
theorem execute_error_propagation (lib : Lib) (a f t : GoString) (exchanger : Exchanger)
    (amount r : Float64) (e : GoError)
    (hparse : lib.ParseFloat a = Except.ok amount) (hle : amount.le0 = false)
    (hex : exchanger { Amount := amount, From := ToUpper lib f, To := ToUpper lib t } =
      (r, some e)) :
    ((e.Is GoError.canceled = true ∨ e.Is GoError.deadlineExceeded = true) →
      (execute lib [a, f, t] exchanger).err = some e) ∧
    (¬ (e.Is GoError.canceled = true ∨ e.Is GoError.deadlineExceeded = true) →
      ∃ err : GoError, (execute lib [a, f, t] exchanger).err = some err ∧
        err.Error = str "cannot get exchange rate: " ++ e.Error ∧
        err.Unwrap = some e ∧ err.Is e = true) := by
  refine ⟨fun hc => ?_, fun hc => ?_⟩
  · have hc2 : (e.Is GoError.canceled || e.Is GoError.deadlineExceeded) = true := by
      simpa using hc
    simp [execute, hparse, hle, hex, hc2]
  · have hc2 : ¬ (e.Is GoError.canceled || e.Is GoError.deadlineExceeded) = true := by
      simpa using hc
    refine ⟨errorfW (str "cannot get exchange rate: ") e, ?_, rfl, rfl, Is_wrap _ e⟩
    simp [execute, hparse, hle, hex, hc2]

/-- Witness of C8: a deadline error wrapped by the transport, and the error `boom` of
`TestExecute_ErrorFromUsecase`. -/
theorem execute_error_propagation_witness :
    (execute fixtureLib [str "1", str "usd", str "btc"]
        (fakeExchange Float64.zero (some (GoError.wrap (str "could not get data from CMC: x")
          GoError.deadlineExceeded)))).err =
        some (GoError.wrap (str "could not get data from CMC: x") GoError.deadlineExceeded) ∧
      ∃ err : GoError,
        (execute fixtureLib [str "1", str "usd", str "btc"]
          (fakeExchange Float64.zero (some (GoError.plain (str "boom"))))).err = some err ∧
        err.Error = str "cannot get exchange rate: " ++ (GoError.plain (str "boom")).Error ∧
        err.Unwrap = some (GoError.plain (str "boom")) ∧
        err.Is (GoError.plain (str "boom")) = true :=
  ⟨(execute_error_propagation fixtureLib (str "1") (str "usd") (str "btc")
      (fakeExchange Float64.zero (some (GoError.wrap (str "could not get data from CMC: x")
        GoError.deadlineExceeded))) f64_1 Float64.zero _ rfl (by decide) rfl).1
      (Or.inr (by decide)),
   (execute_error_propagation fixtureLib (str "1") (str "usd") (str "btc")
      (fakeExchange Float64.zero (some (GoError.plain (str "boom")))) f64_1 Float64.zero _
      rfl (by decide) rfl).2 (by decide)⟩

/-- Counterexample of C9: on `["1", "", ""]` the `Exchanger` receives a request whose
`From` and `To` are empty, and on `["NaN", "usd", "btc"]` one whose `Amount` is not `> 0`. -/
theorem request_invariant_counterexample :
    (execute fixtureLib [str "1", [], []] (fakeExchange f64_42 none)).calls =
        [{ Amount := f64_1, From := [], To := [] }] ∧
      (execute fixtureLib [str "NaN", str "usd", str "btc"] (fakeExchange f64_42 none)).calls =
        [{ Amount := f64_NaN, From := str "USD", To := str "BTC" }] ∧
      f64_NaN.gt0 = false ∧
      ¬ (∀ ex ∈ (execute fixtureLib [str "1", [], []] (fakeExchange f64_42 none)).calls,
          ex.Amount.gt0 = true ∧ ex.From ≠ [] ∧ ex.To ≠ [] ∧
            ToUpper fixtureLib ex.From = ex.From ∧ ToUpper fixtureLib ex.To = ex.To) := by
  decide

/-- C9, amended: every request that `execute` passes to the `Exchanger` has an `Amount`
that is not `<= 0`, so `> 0` unless it is NaN, and a `From` and a `To` that are their own
uppercase form; they may be empty. -/
theorem request_invariant (lib : Lib) (hup : UpperStable lib) (args : List GoString)
    (exchanger : Exchanger) (ex : Exchange)
    (hcall : ex ∈ (execute lib args exchanger).calls) :
    ex.Amount.le0 = false ∧ (ex.Amount.isNaN = false → ex.Amount.gt0 = true) ∧
      ToUpper lib ex.From = ex.From ∧ ToUpper lib ex.To = ex.To := by
  rcases calls_of_execute lib args exchanger with h | ⟨a, f, t, amount, _, _, hle, h⟩
  · rw [h] at hcall
    exact absurd hcall (List.not_mem_nil _)
  · rw [h, List.mem_singleton] at hcall
    subst hcall
    refine ⟨hle, fun hnan => ?_, ToUpper_idem lib hup f, ToUpper_idem lib hup t⟩
    rcases not_le0_cases amount hle with hg | hn
    · exact hg
    · rw [hn] at hnan
      exact absurd hnan (by decide)

/-- The fixture library has a stable uppercase. -/
theorem fixtureLib_UpperStable : UpperStable fixtureLib := by
  intro s hs
  have h : ToUpper fixtureLib s = fixtureLib.MapToUpper s := by
    simp only [ToUpper, hs]
    rfl
  exact h

/-- Witness of C9, amended: the request of `TestExecute_OK`. -/
theorem request_invariant_witness :
    f64_123_45.le0 = false ∧ (f64_123_45.isNaN = false → f64_123_45.gt0 = true) ∧
      ToUpper fixtureLib (str "USD") = str "USD" ∧ ToUpper fixtureLib (str "BTC") = str "BTC" :=
  request_invariant fixtureLib fixtureLib_UpperStable [str "123.45", str "usd", str "btc"]
    (fakeExchange f64_42 none) { Amount := f64_123_45, From := str "USD", To := str "BTC" }
    (by decide)

/-- C10: on `[a, f, t]` with an amount `> 0`, `execute` writes the announcement line, then
calls the `Exchanger`; on a result `r` without error it then writes the result line
and returns no error, the output being the two lines; on an error it writes no more,
the output being the announcement line alone. -/
theorem execute_output (lib : Lib) (a f t : GoString) (exchanger : Exchanger)
    (amount : Float64) (hparse : lib.ParseFloat a = Except.ok amount)
    (hpos : amount.gt0 = true) :
    (∀ r : Float64,
      exchanger { Amount := amount, From := ToUpper lib f, To := ToUpper lib t } = (r, none) →
        execute lib [a, f, t] exchanger =
          ⟨none, [Event.write (announcementLine lib amount (ToUpper lib f) (ToUpper lib t)),
            Event.call { Amount := amount, From := ToUpper lib f, To := ToUpper lib t },
            Event.write (resultLine lib r (ToUpper lib t))]⟩ ∧
        (execute lib [a, f, t] exchanger).output =
          announcementLine lib amount (ToUpper lib f) (ToUpper lib t) ++
            resultLine lib r (ToUpper lib t)) ∧
    (∀ (r : Float64) (e : GoError),
      exchanger { Amount := amount, From := ToUpper lib f, To := ToUpper lib t } = (r, some e) →
        (execute lib [a, f, t] exchanger).events =
          [Event.write (announcementLine lib amount (ToUpper lib f) (ToUpper lib t)),
            Event.call { Amount := amount, From := ToUpper lib f, To := ToUpper lib t }] ∧
        (execute lib [a, f, t] exchanger).output =
          announcementLine lib amount (ToUpper lib f) (ToUpper lib t) ∧
        (execute lib [a, f, t] exchanger).err ≠ none) := by
  have hle := gt0_not_le0 amount hpos
  refine ⟨fun r hex => ?_, fun r e hex => ?_⟩
  · have h : execute lib [a, f, t] exchanger =
        ⟨none, [Event.write (announcementLine lib amount (ToUpper lib f) (ToUpper lib t)),
          Event.call { Amount := amount, From := ToUpper lib f, To := ToUpper lib t },
          Event.write (resultLine lib r (ToUpper lib t))]⟩ := by
      simp [execute, hparse, hle, hex, Sprintln_announce, Sprintln_result]
    refine ⟨h, ?_⟩
    rw [h]
    simp [Outcome.output]
  · by_cases hc : (e.Is GoError.canceled || e.Is GoError.deadlineExceeded) = true
    · have h : execute lib [a, f, t] exchanger =
          ⟨some e, [Event.write (announcementLine lib amount (ToUpper lib f) (ToUpper lib t)),
            Event.call { Amount := amount, From := ToUpper lib f, To := ToUpper lib t }]⟩ := by
        simp [execute, hparse, hle, hex, hc, Sprintln_announce]
      rw [h]
      simp [Outcome.output]
    · have h : execute lib [a, f, t] exchanger =
          ⟨some (errorfW (str "cannot get exchange rate: ") e),
            [Event.write (announcementLine lib amount (ToUpper lib f) (ToUpper lib t)),
            Event.call { Amount := amount, From := ToUpper lib f, To := ToUpper lib t }]⟩ := by
        simp [execute, hparse, hle, hex, hc, Sprintln_announce]
      rw [h]
      simp [Outcome.output]

/-- Witness of C10: the run of `TestExecute_OK` prints `Exchange 123.45 USD to BTC` and
`You received 42 BTC`; the run of `TestExecute_ErrorFromUsecase` prints its first line. -/
theorem execute_output_witness :
    (execute fixtureLib [str "123.45", str "usd", str "btc"] (fakeExchange f64_42 none)).err =
        none ∧
      (execute fixtureLib [str "123.45", str "usd", str "btc"] (fakeExchange f64_42 none)).output =
        str "Exchange 123.45 USD to BTC\nYou received 42 BTC\n" ∧
      (execute fixtureLib [str "1", str "usd", str "btc"]
        (fakeExchange Float64.zero (some (GoError.plain (str "boom"))))).output =
        str "Exchange 1 USD to BTC\n" :=
  ⟨congrArg Outcome.err ((execute_output fixtureLib (str "123.45") (str "usd") (str "btc")
      (fakeExchange f64_42 none) f64_123_45 rfl (by decide)).1 f64_42 rfl).1,
   ((execute_output fixtureLib (str "123.45") (str "usd") (str "btc")
      (fakeExchange f64_42 none) f64_123_45 rfl (by decide)).1 f64_42 rfl).2,
   ((execute_output fixtureLib (str "1") (str "usd") (str "btc")
      (fakeExchange Float64.zero (some (GoError.plain (str "boom")))) f64_1 rfl (by decide)).2
      Float64.zero (GoError.plain (str "boom")) rfl).2.1⟩

end Wert
